import Mathlib

/-!
# certmagic-gcs: the storage adapter over a Google Cloud Storage bucket

A shallow embedding of `gcs.go`.  The adapter methods (`Lock`, `Unlock`, `Store`,
`Load`, `Delete`, `Exists`, `List`, `Stat`) are translated statement by statement.
The object store they talk to (package `cloud.google.com/go/storage`) is an external
collaborator: it is modelled after the interface the specification gives for it
(write, read, delete, stat, list by prefix with an optional delimiter, and a
distinguished "object not found" signal).

Conventions
* a Go `error` is `Option GoError`, `nil` being `none`;
* a Go slice is a `List`, the `nil` slice being `[]`;
* `time.Time` is a `Nat` (a tick of the store's clock), `int64` sizes are `Int`;
* a method that changes the bucket returns the adapter value with the new bucket.
-/

set_option autoImplicit false

namespace CertmagicGCS

/-! ## Errors -/

/-- Go error values, as far as the adapter can tell them apart: the three sentinels it
names, any other leaf error, and the wrapper built by `fmt.Errorf` with one `%w`. -/
inductive GoError where
  /-- The sentinel `storage.ErrObjectNotExist`. -/
  | ErrObjectNotExist
  /-- The sentinel `fs.ErrNotExist`. -/
  | ErrNotExist
  /-- The sentinel `iterator.Done`. -/
  | Done
  /-- Any other error without an `Unwrap` method (transport, authentication, ...). -/
  | other (msg : String)
  /-- The value of `fmt.Errorf("...%w", err)`: a message and the wrapped error. -/
  | wrapError (msg : String) (err : GoError)
  deriving DecidableEq, Repr

/-- The method `Error()`. -/
def GoError.Error : GoError → String
  | .ErrObjectNotExist => "storage: object doesn\x27t exist"
  | .ErrNotExist => "file does not exist"
  | .Done => "no more items in iterator"
  | .other msg => msg
  | .wrapError msg _ => msg

/-- The loop of `errors.Is` on a non-nil error and a non-nil comparable target: equal to
the target, or wrapping (at any depth) an error equal to it. -/
def GoError.is : GoError → GoError → Bool
  | .wrapError msg err, target =>
      decide (GoError.wrapError msg err = target) || GoError.is err target
  | err, target => decide (err = target)

/-- The function `errors.Is(err, target)`. -/
def errorsIs (err target : Option GoError) : Bool :=
  match err, target with
  | some e, some t => e.is t
  | e, t => decide (e = t)

/-- The call `fmt.Errorf(format + ": %w", err)` where `text` is the formatted text before
the colon: the message ends with the wrapped error's own message. -/
def fmtErrorf (text : String) (err : GoError) : GoError :=
  .wrapError (text ++ ": " ++ err.Error) err

/-! ## Data model -/

/-- A byte payload (`[]byte`). -/
abbrev Bytes := List UInt8

/-- A stored object: its content and the time of its last write. -/
structure Object where
  content : Bytes
  updated : Nat
  deriving DecidableEq, Repr

/-- The fields of `storage.ObjectAttrs` the adapter reads.  An entry that stands for a
common prefix ("directory") of a delimited listing has an empty `Name` and its `Prefix`
set. -/
structure ObjectAttrs where
  Name : String
  Prefix : String
  Size : Int
  Updated : Nat
  deriving DecidableEq, Repr

/-- The struct `certmagic.KeyInfo`. -/
structure KeyInfo where
  Key : String
  Modified : Nat
  Size : Int
  IsTerminal : Bool
  deriving DecidableEq, Repr

/-- The zero value of `certmagic.KeyInfo` (`var keyInfo certmagic.KeyInfo`). -/
def KeyInfo.zero : KeyInfo := ⟨"", 0, 0, false⟩

/-- The struct `storage.Query`, with the two fields the adapter sets; an empty
`Delimiter` means none. -/
structure Query where
  Prefix : String
  Delimiter : String
  deriving DecidableEq, Repr

/-- The `context.Context` of one adapter call, seen through its effect on the requests
made under it: for each kind of provider request the error it fails with (cancellation,
deadline, transport, authentication), or `none` when the request reaches the bucket.
For a listing, `next = some (n, e)` lets `n` items through and then fails with `e`. -/
structure Context where
  write : Option GoError
  close : Option GoError
  newReader : Option GoError
  readAll : Option GoError
  delete : Option GoError
  attrs : Option GoError
  next : Option (Nat × GoError)
  deriving DecidableEq, Repr

/-- The context under which no request fails (`context.Background()` on a healthy
connection). -/
def Context.background : Context := ⟨none, none, none, none, none, none, none⟩

/-! ## The object store (external collaborator) -/

/-- Modelled from the spec: the remote bucket behind `*storage.BucketHandle`, which is
not part of the repository.  It holds the objects by name, a clock that stamps writes,
and the error value with which the client library reports a missing object. -/
structure BucketHandle where
  objects : List (String × Object)
  clock : Nat
  notExist : GoError
  deriving DecidableEq, Repr

/-- The names of the stored objects. -/
def BucketHandle.keys (b : BucketHandle) : List String := b.objects.map Prod.fst

/-- The object stored under a name, if any. -/
def BucketHandle.find (b : BucketHandle) (name : String) : Option Object :=
  (b.objects.find? (fun o => decide (o.1 = name))).map Prod.snd

/-- Modelled from the spec: an object handle, `bucket.Object(name)`. -/
structure ObjectHandle where
  bucket : BucketHandle
  name : String

/-- Modelled from the spec: `(*BucketHandle).Object`. -/
def BucketHandle.Object (b : BucketHandle) (name : String) : ObjectHandle := ⟨b, name⟩

/-- The attributes the store reports for an object. -/
def attrsOf (name : String) (o : Object) : ObjectAttrs :=
  ⟨name, "", (o.content.length : Int), o.updated⟩

/-- Modelled from the spec: `stat(key) → {size, modifiedTime} | NotFound`, the method
`(*ObjectHandle).Attrs`. -/
def ObjectHandle.Attrs (o : ObjectHandle) (ctx : Context) : Except GoError ObjectAttrs :=
  match ctx.attrs with
  | some e => .error e
  | none =>
    match o.bucket.find o.name with
    | none => .error o.bucket.notExist
    | some obj => .ok (attrsOf o.name obj)

/-- Modelled from the spec: `delete(key) → ok | NotFound`, the method
`(*ObjectHandle).Delete`; it returns the error and the bucket afterwards. -/
def ObjectHandle.Delete (o : ObjectHandle) (ctx : Context) : Option GoError × BucketHandle :=
  match ctx.delete with
  | some e => (some e, o.bucket)
  | none =>
    match o.bucket.find o.name with
    | none => (some o.bucket.notExist, o.bucket)
    | some _ =>
      (none, { o.bucket with objects := o.bucket.objects.filter (fun p => decide (p.1 ≠ o.name)) })

/-- Modelled from the spec: an open `*storage.Reader`, holding the bytes still to be
read and the failure, if any, that reading them runs into. -/
structure Reader where
  content : Bytes
  fault : Option GoError

/-- Modelled from the spec: `read(key) → bytes | NotFound`, first half: the method
`(*ObjectHandle).NewReader`. -/
def ObjectHandle.NewReader (o : ObjectHandle) (ctx : Context) : Except GoError Reader :=
  match ctx.newReader with
  | some e => .error e
  | none =>
    match o.bucket.find o.name with
    | none => .error o.bucket.notExist
    | some obj => .ok ⟨obj.content, ctx.readAll⟩

/-- Modelled from the spec: `read(key)`, second half: `ioutil.ReadAll` on the reader.
On failure it returns what was read so far, taken to be nothing. -/
def ioutilReadAll (rc : Reader) : Bytes × Option GoError :=
  match rc.fault with
  | some e => ([], some e)
  | none => (rc.content, none)

/-- Modelled from the spec: a `*storage.Writer`: the object it writes, the bytes
accepted so far, and the context it was opened under. -/
structure Writer where
  o : ObjectHandle
  ctx : Context
  buf : Bytes

/-- Modelled from the spec: `(*ObjectHandle).NewWriter`. -/
def ObjectHandle.NewWriter (o : ObjectHandle) (ctx : Context) : Writer := ⟨o, ctx, []⟩

/-- Modelled from the spec: `(*Writer).Write`: the number of bytes accepted, the error,
and the writer afterwards.  Nothing reaches the bucket before `Close`. -/
def Writer.Write (w : Writer) (p : Bytes) : (Nat × Option GoError) × Writer :=
  match w.ctx.write with
  | some e => ((0, some e), w)
  | none => ((p.length, none), { w with buf := w.buf ++ p })

/-- Modelled from the spec: `write(key, bytes)`, the commit: `(*Writer).Close` replaces
or creates the object with the bytes written and stamps it with the clock; on failure
the bucket is left as it was. -/
def Writer.Close (w : Writer) : Option GoError × BucketHandle :=
  match w.ctx.close with
  | some e => (some e, w.o.bucket)
  | none =>
    (none,
      { w.o.bucket with
        objects :=
          (w.o.name, ⟨w.buf, w.o.bucket.clock⟩) ::
            w.o.bucket.objects.filter (fun p => decide (p.1 ≠ w.o.name))
        clock := w.o.bucket.clock + 1 })

/-- Whether `d` occurs in `l` as a contiguous run. -/
def containsRun (d : List Char) : List Char → Bool
  | [] => d.isPrefixOf []
  | c :: l => d.isPrefixOf (c :: l) || containsRun d l

/-- The part of `l` up to and including the first occurrence of `d`, or `none` when `d`
does not occur. -/
def throughRun (d : List Char) : List Char → Option (List Char)
  | [] => if d.isPrefixOf [] then some d else none
  | c :: l =>
    if d.isPrefixOf (c :: l) then some d else (throughRun d l).map (fun r => c :: r)

/-- Whether the part of `name` after the query's prefix contains the delimiter; never so
without a delimiter. -/
def Query.isDeeper (q : Query) (name : String) : Bool :=
  decide (q.Delimiter ≠ "") && containsRun q.Delimiter.data (name.data.drop q.Prefix.data.length)

/-- The common prefix that stands for `name` in a delimited listing: the query's prefix
and what follows it up to and including the first delimiter. -/
def Query.commonPrefix (q : Query) (name : String) : Option String :=
  if q.Delimiter = "" then none
  else
    (throughRun q.Delimiter.data (name.data.drop q.Prefix.data.length)).map
      (fun r => String.mk (q.Prefix.data ++ r))

/-- Modelled from the spec: `list(prefix, delimiter?) → sequence of keys`, the entries a
listing produces.  Objects whose name starts with the prefix are listed; with a
delimiter, those whose remainder contains it are left out and are stood for by one entry
per common prefix, which has an empty `Name`. -/
def BucketHandle.entries (b : BucketHandle) (q : Query) : List ObjectAttrs :=
  let matching := b.objects.filter (fun o => q.Prefix.data.isPrefixOf o.1.data)
  let items := matching.filter (fun o => !q.isDeeper o.1)
  let prefixes := (matching.filterMap (fun o => q.commonPrefix o.1)).dedup
  items.map (fun o => attrsOf o.1 o.2) ++ prefixes.map (fun p => ⟨"", p, 0, 0⟩)

/-- Modelled from the spec: a `*storage.ObjectIterator`: what the successive calls of
`Next` return; once exhausted it returns `iterator.Done`. -/
abbrev ObjectIterator := List (Except GoError ObjectAttrs)

/-- Modelled from the spec: `(*ObjectIterator).Next`, with the iterator afterwards. -/
def ObjectIterator.Next : ObjectIterator → Except GoError ObjectAttrs × ObjectIterator
  | [] => (.error .Done, [])
  | r :: rest => (r, rest)

/-- Modelled from the spec: `(*BucketHandle).Objects`. -/
def BucketHandle.Objects (b : BucketHandle) (ctx : Context) (q : Query) : ObjectIterator :=
  match ctx.next with
  | none => (b.entries q).map .ok
  | some (n, e) => ((b.entries q).take n).map .ok ++ [.error e]

/-! ## The adapter (`gcs.go`) -/

/-- The struct `GCS`, without its logger. -/
structure GCS where
  BucketName : String
  Bucket : BucketHandle
  deriving DecidableEq, Repr

/-- The method `Lock`: `return nil`; the adapter and the bucket are as before. -/
def GCS.Lock (gcs : GCS) (_ctx : Context) (_key : String) : Option GoError × GCS :=
  (none, gcs)

/-- The method `Unlock`: `return nil`; the adapter and the bucket are as before. -/
def GCS.Unlock (gcs : GCS) (_ctx : Context) (_key : String) : Option GoError × GCS :=
  (none, gcs)

/-- The method `Store`. -/
def GCS.Store (gcs : GCS) (ctx : Context) (key : String) (value : Bytes) :
    Option GoError × GCS :=
  let w := (gcs.Bucket.Object key).NewWriter ctx
  match w.Write value with
  | ((_, some err), _) => (some (fmtErrorf ("writing object " ++ key) err), gcs)
  | ((_, none), w) =>
    let r := w.Close
    (r.1, { gcs with Bucket := r.2 })

/-- The error half of a provider result (`_, err := ...`). -/
def errOf {α : Type} : Except GoError α → Option GoError
  | .error e => some e
  | .ok _ => none

/-- The method `Load`. -/
def GCS.Load (gcs : GCS) (ctx : Context) (key : String) : Bytes × Option GoError :=
  let r := (gcs.Bucket.Object key).NewReader ctx
  if errorsIs (errOf r) (some .ErrObjectNotExist) then ([], some .ErrNotExist)
  else
    match r with
    | .error err => ([], some (fmtErrorf ("loading object " ++ key) err))
    | .ok rc =>
      match ioutilReadAll rc with
      | (_, some err) => ([], some (fmtErrorf ("reading object " ++ key) err))
      | (encrypted, none) => (encrypted, none)

/-- The method `Delete`, with the adapter over the bucket as the request left it. -/
def GCS.Delete (gcs : GCS) (ctx : Context) (key : String) : Option GoError × GCS :=
  let r := (gcs.Bucket.Object key).Delete ctx
  let gcs := { gcs with Bucket := r.2 }
  if errorsIs r.1 (some .ErrObjectNotExist) then (some .ErrNotExist, gcs)
  else
    match r.1 with
    | some err => (some (fmtErrorf ("deleting object " ++ key) err), gcs)
    | none => (none, gcs)

/-- The method `Exists`: `return err != storage.ErrObjectNotExist`, a comparison of
error values. -/
def GCS.Exists (gcs : GCS) (ctx : Context) (key : String) : Bool :=
  let err := errOf ((gcs.Bucket.Object key).Attrs ctx)
  decide (err ≠ some .ErrObjectNotExist)

/-- The `for` loop of `List`: each round calls `it.Next()`; `iterator.Done` (compared as
a value) ends the loop, any other error returns `nil` and the wrapped error, and an
entry is appended when its `Name` is not empty. -/
def listLoop : ObjectIterator → List String → List String × Option GoError
  | [], names => (names, none)
  | .error err :: _, names =>
    if err = .Done then (names, none)
    else ([], some (fmtErrorf "listing objects" err))
  | .ok attrs :: it, names =>
    listLoop it (if attrs.Name ≠ "" then names ++ [attrs.Name] else names)

/-- The method `List`. -/
def GCS.List (gcs : GCS) (ctx : Context) (pfx : String) (recursive : Bool) :
    List String × Option GoError :=
  let query : Query := ⟨pfx, ""⟩
  let query := if !recursive then { query with Delimiter := "/" } else query
  let it := gcs.Bucket.Objects ctx query
  listLoop it []

/-- The method `Stat`. -/
def GCS.Stat (gcs : GCS) (ctx : Context) (key : String) : KeyInfo × Option GoError :=
  let keyInfo := KeyInfo.zero
  let r := (gcs.Bucket.Object key).Attrs ctx
  if errorsIs (errOf r) (some .ErrObjectNotExist) then (keyInfo, some .ErrNotExist)
  else
    match r with
    | .error err => (keyInfo, some (fmtErrorf ("loading attributes for " ++ key) err))
    | .ok attr =>
      let keyInfo := { keyInfo with Key := key }
      let keyInfo := { keyInfo with Modified := attr.Updated }
      let keyInfo := { keyInfo with Size := attr.Size }
      let keyInfo := { keyInfo with IsTerminal := true }
      (keyInfo, none)

/-- The bucket of the listing example: `a/b.txt`, `a/c/d.txt` and `e/f.txt`. -/
def exampleBucket : BucketHandle :=
  { objects := [("a/b.txt", ⟨[1], 0⟩), ("a/c/d.txt", ⟨[2, 3], 1⟩), ("e/f.txt", ⟨[], 2⟩)]
    clock := 3
    notExist := .ErrObjectNotExist }

/-- The provider reports a missing object with an error that `errors.Is` recognises as
`storage.ErrObjectNotExist`: the sentinel itself or an error wrapping it. -/
def BucketHandle.ReportsNotExist (b : BucketHandle) : Prop :=
  errorsIs (some b.notExist) (some .ErrObjectNotExist) = true

/-- A bucket content the service can hold: one object per name and no empty name. -/
def BucketHandle.WellFormed (b : BucketHandle) : Prop :=
  b.keys.Nodup ∧ "" ∉ b.keys

/-- The query `List` builds from its arguments. -/
def listQuery (pfx : String) (recursive : Bool) : Query :=
  if !recursive then ⟨pfx, "/"⟩ else ⟨pfx, ""⟩

/-- The empty bucket, reporting a missing object with the given error. -/
def BucketHandle.empty (notExist : GoError) : BucketHandle := ⟨[], 0, notExist⟩

/-- An error that wraps the provider sentinel the way `fmt.Errorf` with `%w` does. -/
def wrappedNotExist : GoError :=
  fmtErrorf "googleapi: Error 404" .ErrObjectNotExist

/-! ## Lemmas on errors -/

theorem GoError.is_self (e : GoError) : e.is e = true := by
  cases e <;> simp [GoError.is]

@[simp]
theorem errorsIs_nil (t : GoError) : errorsIs none (some t) = false := by
  simp [errorsIs]

@[simp]
theorem errOf_ok {α : Type} (a : α) : errOf (Except.ok a : Except GoError α) = none := rfl

@[simp]
theorem errOf_error {α : Type} (e : GoError) :
    errOf (Except.error e : Except GoError α) = some e := rfl

/-! ## Lemmas on the bucket -/

theorem find?_fst_filter_ne (objs : List (String × Object)) (name : String) :
    (objs.filter (fun p => decide (p.1 ≠ name))).find? (fun o => decide (o.1 = name)) = none := by
  simp [List.find?_eq_none]

theorem find_after_remove (objs : List (String × Object)) (clock : Nat) (notExist : GoError)
    (name : String) :
    (⟨objs.filter (fun p => decide (p.1 ≠ name)), clock, notExist⟩ : BucketHandle).find name =
      none := by
  simp only [BucketHandle.find, find?_fst_filter_ne, Option.map_none']

theorem BucketHandle.find_eq_none_iff (b : BucketHandle) (name : String) :
    b.find name = none ↔ name ∉ b.keys := by
  simp only [BucketHandle.find, BucketHandle.keys, Option.map_eq_none', List.find?_eq_none,
    List.mem_map, not_exists, not_and]
  constructor
  · intro h p hp hname
    exact h p hp (by simpa using hname)
  · intro h p hp
    simpa using h p hp

theorem BucketHandle.find_isSome_of_mem (b : BucketHandle) (name : String)
    (h : name ∈ b.keys) : ∃ obj, b.find name = some obj := by
  cases hf : b.find name with
  | none => exact absurd h ((b.find_eq_none_iff name).1 hf)
  | some obj => exact ⟨obj, rfl⟩

/-- What `Store` leaves in the bucket when the write and the close succeed. -/
theorem store_ok (gcs : GCS) (ctx : Context) (key : String) (value : Bytes)
    (hw : ctx.write = none) (hc : ctx.close = none) :
    gcs.Store ctx key value =
      (none,
        { gcs with
          Bucket :=
            { gcs.Bucket with
              objects :=
                (key, ⟨value, gcs.Bucket.clock⟩) ::
                  gcs.Bucket.objects.filter (fun p => decide (p.1 ≠ key))
              clock := gcs.Bucket.clock + 1 } }) := by
  simp [GCS.Store, BucketHandle.Object, ObjectHandle.NewWriter, Writer.Write, Writer.Close,
    hw, hc]

theorem store_eq_none_iff (gcs : GCS) (ctx : Context) (key : String) (value : Bytes) :
    (gcs.Store ctx key value).1 = none ↔ ctx.write = none ∧ ctx.close = none := by
  cases hw : ctx.write <;> cases hc : ctx.close <;>
    simp [GCS.Store, BucketHandle.Object, ObjectHandle.NewWriter, Writer.Write,
      Writer.Close, hw, hc]

/-- What `Delete` leaves in the bucket when the request goes through and the object is
there. -/
theorem delete_ok (gcs : GCS) (ctx : Context) (key : String)
    (hd : ctx.delete = none) (hk : key ∈ gcs.Bucket.keys) :
    gcs.Delete ctx key =
      (none,
        { gcs with
          Bucket :=
            { gcs.Bucket with
              objects := gcs.Bucket.objects.filter (fun p => decide (p.1 ≠ key)) } }) := by
  obtain ⟨obj, hobj⟩ := gcs.Bucket.find_isSome_of_mem key hk
  simp [GCS.Delete, BucketHandle.Object, ObjectHandle.Delete, hd, hobj]

/-- With the provider answering, `Load` of a name the bucket does not hold is
`fs.ErrNotExist` and no bytes. -/
theorem load_of_absent (gcs : GCS) (ctx : Context) (key : String)
    (hne : gcs.Bucket.ReportsNotExist) (hf : gcs.Bucket.find key = none)
    (hr : ctx.newReader = none) : gcs.Load ctx key = ([], some .ErrNotExist) := by
  have hne2 : errorsIs (some gcs.Bucket.notExist) (some .ErrObjectNotExist) = true := hne
  simp [GCS.Load, BucketHandle.Object, ObjectHandle.NewReader, hr, hf, hne2]

/-- With the provider answering, `Delete` of a name the bucket does not hold is
`fs.ErrNotExist`. -/
theorem delete_of_absent (gcs : GCS) (ctx : Context) (key : String)
    (hne : gcs.Bucket.ReportsNotExist) (hf : gcs.Bucket.find key = none)
    (hd : ctx.delete = none) : (gcs.Delete ctx key).1 = some .ErrNotExist := by
  have hne2 : errorsIs (some gcs.Bucket.notExist) (some .ErrObjectNotExist) = true := hne
  simp [GCS.Delete, BucketHandle.Object, ObjectHandle.Delete, hd, hf, hne2]

/-- A well-formed bucket stays so under a successful or failed `Store` of a non-empty
key. -/
theorem store_wellFormed (gcs : GCS) (ctx : Context) (key : String) (value : Bytes)
    (hkey : key ≠ "") (h : gcs.Bucket.WellFormed) :
    (gcs.Store ctx key value).2.Bucket.WellFormed := by
  obtain ⟨hnd, hne⟩ := h
  cases hw : ctx.write with
  | some e =>
    simpa [GCS.Store, BucketHandle.Object, ObjectHandle.NewWriter, Writer.Write, hw]
      using And.intro hnd hne
  | none =>
    cases hc : ctx.close with
    | some e =>
      simpa [GCS.Store, BucketHandle.Object, ObjectHandle.NewWriter, Writer.Write,
        Writer.Close, hw, hc] using And.intro hnd hne
    | none =>
      rw [store_ok gcs ctx key value hw hc]
      simp only [BucketHandle.WellFormed, BucketHandle.keys, List.map_cons,
        List.nodup_cons, List.mem_cons, List.mem_map, not_or] at hnd hne ⊢
      refine ⟨⟨?_, ?_⟩, ?_, ?_⟩
      · rintro ⟨p, hp, hpk⟩
        simp [List.mem_filter] at hp
        exact hp.2 hpk
      · exact hnd.sublist ((List.filter_sublist _).map _)
      · exact fun h => hkey h.symm
      · rintro ⟨p, hp, hpk⟩
        exact hne ⟨p, (List.mem_filter.1 hp).1, hpk⟩

/-- The bucket after `Delete` is the one the provider's delete leaves. -/
theorem delete_bucket (gcs : GCS) (ctx : Context) (key : String) :
    (gcs.Delete ctx key).2.Bucket = ((gcs.Bucket.Object key).Delete ctx).2 := by
  simp only [GCS.Delete]
  split
  · rfl
  · split <;> rfl

/-- A well-formed bucket stays so under `Delete`. -/
theorem delete_wellFormed (gcs : GCS) (ctx : Context) (key : String)
    (h : gcs.Bucket.WellFormed) : (gcs.Delete ctx key).2.Bucket.WellFormed := by
  have hsub : (⟨gcs.Bucket.objects.filter (fun p => decide (p.1 ≠ key)), gcs.Bucket.clock,
        gcs.Bucket.notExist⟩ : BucketHandle).keys.Sublist gcs.Bucket.keys :=
    (List.filter_sublist _).map _
  have hdel : (gcs.Delete ctx key).2.Bucket = gcs.Bucket ∨
      (gcs.Delete ctx key).2.Bucket =
        ⟨gcs.Bucket.objects.filter (fun p => decide (p.1 ≠ key)), gcs.Bucket.clock,
          gcs.Bucket.notExist⟩ := by
    rw [delete_bucket]
    cases hd : ctx.delete <;> cases hf : gcs.Bucket.find key <;>
      simp [BucketHandle.Object, ObjectHandle.Delete, hd, hf]
  rcases hdel with hdel | hdel
  · rw [hdel]; exact h
  · rw [hdel]
    exact ⟨h.1.sublist hsub, fun hmem => h.2 (hsub.subset hmem)⟩

/-- The empty bucket is well formed. -/
theorem empty_wellFormed (notExist : GoError) : (BucketHandle.empty notExist).WellFormed := by
  simp [BucketHandle.WellFormed, BucketHandle.empty, BucketHandle.keys]

/-- Neither `Store` nor `Delete` changes the error with which the bucket reports a
missing object. -/
theorem notExist_unchanged (gcs : GCS) (ctx : Context) (key : String) (value : Bytes) :
    (gcs.Store ctx key value).2.Bucket.notExist = gcs.Bucket.notExist ∧
    (gcs.Delete ctx key).2.Bucket.notExist = gcs.Bucket.notExist := by
  constructor
  · cases hw : ctx.write <;> cases hc : ctx.close <;>
      simp [GCS.Store, BucketHandle.Object, ObjectHandle.NewWriter, Writer.Write,
        Writer.Close, hw, hc]
  · rw [delete_bucket]
    cases hd : ctx.delete <;> cases hf : gcs.Bucket.find key <;>
      simp [BucketHandle.Object, ObjectHandle.Delete, hd, hf]

/-! ## Lemmas on the loop of `List` -/

/-- The loop, round by round: one call of `Next` and the three branches on its result. -/
theorem listLoop_next (it : ObjectIterator) (names : List String) :
    listLoop it names =
      match it.Next with
      | (.error err, _) =>
        if err = .Done then (names, none) else ([], some (fmtErrorf "listing objects" err))
      | (.ok attrs, rest) =>
        listLoop rest (if attrs.Name ≠ "" then names ++ [attrs.Name] else names) := by
  cases it with
  | nil => simp [listLoop, ObjectIterator.Next]
  | cons r rest => cases r <;> simp [listLoop, ObjectIterator.Next]

theorem listLoop_ok (items : List ObjectAttrs) (it : ObjectIterator) (names : List String) :
    listLoop (items.map .ok ++ it) names =
      listLoop it (names ++ (items.map (fun a => a.Name)).filter (fun n => decide (n ≠ ""))) := by
  induction items generalizing names with
  | nil => simp
  | cons a items ih =>
    by_cases ha : a.Name = ""
    · simp [listLoop, ih, ha]
    · simp [listLoop, ih, ha]

theorem listLoop_error (e : GoError) (rest : ObjectIterator) (names : List String)
    (he : e ≠ .Done) :
    listLoop (.error e :: rest) names = ([], some (fmtErrorf "listing objects" e)) := by
  simp [listLoop, he]

/-! ## Lemmas on listing -/

theorem containsRun_singleton (c : Char) (l : List Char) :
    containsRun [c] l = true ↔ c ∈ l := by
  induction l with
  | nil => simp [containsRun, List.isPrefixOf]
  | cons x l ih =>
    simp only [containsRun, List.isPrefixOf, Bool.or_eq_true, Bool.and_eq_true, ih,
      List.mem_cons, beq_iff_eq]
    constructor
    · rintro (⟨h, -⟩ | h)
      · exact Or.inl h
      · exact Or.inr h
    · rintro (h | h)
      · exact Or.inl ⟨h, by cases l <;> trivial⟩
      · exact Or.inr h

theorem isDeeper_slash (pfx name : String) :
    (⟨pfx, "/"⟩ : Query).isDeeper name = true ↔ '/' ∈ name.data.drop pfx.data.length := by
  have h : ("/" : String).data = ['/'] := rfl
  simp only [Query.isDeeper, h, Bool.and_eq_true, containsRun_singleton]
  constructor
  · exact fun hh => hh.2
  · exact fun hh => ⟨(by decide : decide (("/" : String) ≠ "") = true), hh⟩

theorem isDeeper_none (pfx name : String) :
    (⟨pfx, ""⟩ : Query).isDeeper name = false := by
  simp [Query.isDeeper]

theorem mem_filter_by_name (objs : List (String × Object)) (f : String → Bool)
    (name : String) :
    name ∈ (objs.filter (fun o => f o.1)).map Prod.fst ↔
      name ∈ objs.map Prod.fst ∧ f name = true := by
  simp only [List.mem_map, List.mem_filter]
  constructor
  · rintro ⟨o, ⟨ho, hf⟩, rfl⟩
    exact ⟨⟨o, ho, rfl⟩, hf⟩
  · rintro ⟨⟨o, ho, rfl⟩, hf⟩
    exact ⟨o, ⟨ho, hf⟩, rfl⟩

theorem starts_with_iff (pfx name : String) :
    pfx.data.isPrefixOf name.data = true ↔ ∃ rest : String, name = pfx ++ rest := by
  rw [List.isPrefixOf_iff_prefix]
  constructor
  · rintro ⟨t, ht⟩
    exact ⟨⟨t⟩, String.ext (by simp [ht])⟩
  · rintro ⟨rest, rfl⟩
    exact ⟨rest.data, by simp⟩

theorem listLoop_no_empty (it : ObjectIterator) (names : List String)
    (h : "" ∉ names) : "" ∉ (listLoop it names).1 := by
  induction it generalizing names with
  | nil => simpa [listLoop] using h
  | cons r it ih =>
    cases r with
    | error e =>
      by_cases he : e = .Done
      · simpa [listLoop, he] using h
      · simp [listLoop, he]
    | ok a =>
      simp only [listLoop]
      apply ih
      by_cases ha : a.Name = ""
      · simpa [ha] using h
      · simp only [ne_eq, ha, not_false_eq_true, ↓reduceIte, List.mem_append,
          List.mem_singleton, not_or]
        exact ⟨h, fun h2 => ha h2.symm⟩

/-- The names a listing that runs to its end returns: those of the listed objects, the
entries that stand for common prefixes being passed over. -/
theorem list_to_end (gcs : GCS) (ctx : Context) (pfx : String) (recursive : Bool)
    (hn : ctx.next = none) :
    gcs.List ctx pfx recursive =
      ((((gcs.Bucket.objects.filter (fun o => pfx.data.isPrefixOf o.1.data)).filter
            (fun o => !(listQuery pfx recursive).isDeeper o.1)).map Prod.fst).filter
          (fun n => decide (n ≠ "")), none) := by
  have hq : (if (!recursive) = true then ({ Prefix := pfx, Delimiter := "/" } : Query)
      else ⟨pfx, ""⟩) = listQuery pfx recursive := rfl
  have hp : (listQuery pfx recursive).Prefix = pfx := by
    cases recursive <;> rfl
  have h := listLoop_ok ((gcs.Bucket.entries (listQuery pfx recursive))) [] []
  simp only [List.append_nil, List.nil_append] at h
  simp only [GCS.List, BucketHandle.Objects, hn, hq, h, listLoop]
  simp [BucketHandle.entries, attrsOf, List.filter_map, Function.comp_def, hp]

/-- In a well-formed bucket, a listing that runs to its end returns one name per listed
object and nothing else. -/
theorem list_well_formed (gcs : GCS) (ctx : Context) (pfx : String) (recursive : Bool)
    (hwf : gcs.Bucket.WellFormed) (hn : ctx.next = none) :
    (gcs.List ctx pfx recursive).2 = none ∧ (gcs.List ctx pfx recursive).1.Nodup ∧
    ∀ name : String, name ∈ (gcs.List ctx pfx recursive).1 ↔
      name ∈ gcs.Bucket.keys ∧ pfx.data.isPrefixOf name.data = true ∧
        (listQuery pfx recursive).isDeeper name = false := by
  have hsub : (((gcs.Bucket.objects.filter (fun o => pfx.data.isPrefixOf o.1.data)).filter
      (fun o => !(listQuery pfx recursive).isDeeper o.1)).map Prod.fst).Sublist
      gcs.Bucket.keys :=
    (((List.filter_sublist _).trans (List.filter_sublist _))).map _
  have hfil : ((((gcs.Bucket.objects.filter (fun o => pfx.data.isPrefixOf o.1.data)).filter
      (fun o => !(listQuery pfx recursive).isDeeper o.1)).map Prod.fst).filter
        (fun n => decide (n ≠ ""))) =
      ((gcs.Bucket.objects.filter (fun o => pfx.data.isPrefixOf o.1.data)).filter
      (fun o => !(listQuery pfx recursive).isDeeper o.1)).map Prod.fst := by
    rw [List.filter_eq_self]
    intro n hmem
    have hne : n ≠ "" := fun h => hwf.2 (h ▸ hsub.subset hmem)
    simpa using hne
  rw [list_to_end gcs ctx pfx recursive hn, hfil]
  refine ⟨rfl, hwf.1.sublist hsub, fun name => ?_⟩
  have h1 := mem_filter_by_name
    (gcs.Bucket.objects.filter (fun o => pfx.data.isPrefixOf o.1.data))
    (fun n => !(listQuery pfx recursive).isDeeper n) name
  have h2 := mem_filter_by_name gcs.Bucket.objects (fun n => pfx.data.isPrefixOf n.data) name
  simp only [Bool.not_eq_true'] at h1
  exact h1.trans ⟨fun h => ⟨(h2.1 h.1).1, (h2.1 h.1).2, h.2⟩,
    fun h => ⟨h2.2 ⟨h.1, h.2.1⟩, h.2.2⟩⟩

/-! ## Listing -/

/-- C5: in a bucket holding one object per name and no empty name, a listing that runs to
its end returns, without repetition, for `recursive = true` exactly the stored keys that
start with the prefix, and for `recursive = false` exactly those whose remainder after
the prefix has no `/`; no listing ever returns an empty name, whatever the bucket and
the context; over `a/b.txt`, `a/c/d.txt`, `e/f.txt` the prefix `a/` gives `a/b.txt`
alone without recursion and `a/b.txt`, `a/c/d.txt` with it. -/
theorem list_matching_keys (gcs : GCS) (ctx : Context) (pfx : String) (recursive : Bool) :
    "" ∉ (gcs.List ctx pfx recursive).1 ∧
    (gcs.Bucket.WellFormed → ctx.next = none →
      ((gcs.List ctx pfx true).2 = none ∧ (gcs.List ctx pfx true).1.Nodup ∧
        ∀ name : String, name ∈ (gcs.List ctx pfx true).1 ↔
          name ∈ gcs.Bucket.keys ∧ ∃ rest : String, name = pfx ++ rest) ∧
      ((gcs.List ctx pfx false).2 = none ∧ (gcs.List ctx pfx false).1.Nodup ∧
        ∀ name : String, name ∈ (gcs.List ctx pfx false).1 ↔
          name ∈ gcs.Bucket.keys ∧ ∃ rest : String, name = pfx ++ rest ∧ '/' ∉ rest.data)) ∧
    GCS.List ⟨"bucket", exampleBucket⟩ Context.background "a/" false =
      (["a/b.txt"], none) ∧
    GCS.List ⟨"bucket", exampleBucket⟩ Context.background "a/" true =
      (["a/b.txt", "a/c/d.txt"], none) := by
  refine ⟨?_, ?_, ?_, ?_⟩
  · exact listLoop_no_empty _ [] (by simp)
  · intro hwf hn
    obtain ⟨ht1, ht2, ht3⟩ := list_well_formed gcs ctx pfx true hwf hn
    obtain ⟨hf1, hf2, hf3⟩ := list_well_formed gcs ctx pfx false hwf hn
    refine ⟨⟨ht1, ht2, fun name => ?_⟩, ⟨hf1, hf2, fun name => ?_⟩⟩
    · rw [ht3, starts_with_iff]
      have hd : (listQuery pfx true).isDeeper name = false := isDeeper_none pfx name
      simp [hd]
    · rw [hf3, starts_with_iff]
      have hd : (listQuery pfx false).isDeeper name = true ↔
          '/' ∈ name.data.drop pfx.data.length := isDeeper_slash pfx name
      rw [← Bool.not_eq_true, hd]
      constructor
      · rintro ⟨hk, ⟨rest, rfl⟩, hs⟩
        exact ⟨hk, rest, rfl, by simpa using hs⟩
      · rintro ⟨hk, rest, rfl, hs⟩
        exact ⟨hk, ⟨rest, rfl⟩, by simpa using hs⟩
  · rfl
  · rfl

/-- Witness of C5: in the example bucket the non-recursive listing of `a/` has
`a/c/d.txt` exactly if that key is stored under `a/` with no further `/`. -/
theorem list_matching_keys_witness :
    "a/c/d.txt" ∈ (GCS.List ⟨"bucket", exampleBucket⟩ Context.background "a/" false).1 ↔
      "a/c/d.txt" ∈ exampleBucket.keys ∧
        ∃ rest : String, "a/c/d.txt" = "a/" ++ rest ∧ '/' ∉ rest.data :=
  ((list_matching_keys ⟨"bucket", exampleBucket⟩ Context.background "a/" false).2.1
    ⟨by decide, by decide⟩ rfl).2.2.2 "a/c/d.txt"

/-! ## Round trip, metadata and absence -/

/-- C1: when the write and the close of `Store(k, v)` succeed, `Store` returns no error
and a following `Load(k)` whose open and read reach the bucket returns exactly `v` and
no error, for every key, every payload (the empty one included) and every earlier
content of the bucket. -/
theorem store_load_roundtrip (gcs : GCS) (ctx ctx2 : Context) (key : String) (value : Bytes)
    (hw : ctx.write = none) (hc : ctx.close = none)
    (hr : ctx2.newReader = none) (ha : ctx2.readAll = none) :
    (gcs.Store ctx key value).1 = none ∧
    (gcs.Store ctx key value).2.Load ctx2 key = (value, none) := by
  rw [store_ok gcs ctx key value hw hc]
  simp [GCS.Load, BucketHandle.Object, ObjectHandle.NewReader, BucketHandle.find,
    ioutilReadAll, hr, ha]

/-- Witness of C1: the certificate of the scenario, written over an older object of the
same key and read back. -/
theorem store_load_roundtrip_witness :
    (GCS.Store ⟨"bucket", ⟨[("acme/example.com/cert.pem", ⟨[79, 76, 68], 0⟩)], 1,
          .ErrObjectNotExist⟩⟩
        Context.background "acme/example.com/cert.pem"
        [67, 69, 82, 84, 68, 65, 84, 65]).2.Load
      Context.background "acme/example.com/cert.pem" =
      ([67, 69, 82, 84, 68, 65, 84, 65], none) :=
  (store_load_roundtrip
    ⟨"bucket", ⟨[("acme/example.com/cert.pem", ⟨[79, 76, 68], 0⟩)], 1, .ErrObjectNotExist⟩⟩
    Context.background Context.background "acme/example.com/cert.pem"
    [67, 69, 82, 84, 68, 65, 84, 65] rfl rfl rfl rfl).2

/-- C2: after a `Store(k, v)` that returned no error, `Exists(k)` returns true and
`Stat(k)` returns no error and a `KeyInfo` with key `k`, size `len(v)` and `IsTerminal`
set, the attribute lookups reaching the bucket. -/
theorem store_exists_stat (gcs : GCS) (ctx ctx2 : Context) (key : String) (value : Bytes)
    (hs : (gcs.Store ctx key value).1 = none) (ha : ctx2.attrs = none) :
    (gcs.Store ctx key value).2.Exists ctx2 key = true ∧
    ((gcs.Store ctx key value).2.Stat ctx2 key).2 = none ∧
    ((gcs.Store ctx key value).2.Stat ctx2 key).1.Key = key ∧
    ((gcs.Store ctx key value).2.Stat ctx2 key).1.Size = (value.length : Int) ∧
    ((gcs.Store ctx key value).2.Stat ctx2 key).1.IsTerminal = true := by
  obtain ⟨hw, hc⟩ := (store_eq_none_iff gcs ctx key value).1 hs
  rw [store_ok gcs ctx key value hw hc]
  simp [GCS.Exists, GCS.Stat, BucketHandle.Object, ObjectHandle.Attrs, BucketHandle.find,
    errOf, attrsOf, ha]

/-- Witness of C2: the certificate of the scenario has size 8. -/
theorem store_exists_stat_witness :
    ((GCS.Store ⟨"bucket", BucketHandle.empty .ErrObjectNotExist⟩ Context.background
        "acme/example.com/cert.pem" [67, 69, 82, 84, 68, 65, 84, 65]).2.Stat
      Context.background "acme/example.com/cert.pem").1.Size = 8 :=
  (store_exists_stat ⟨"bucket", BucketHandle.empty .ErrObjectNotExist⟩ Context.background
    Context.background "acme/example.com/cert.pem" [67, 69, 82, 84, 68, 65, 84, 65]
    rfl rfl).2.2.2.1

/-- C3: for a key present in the bucket, `Delete` returns no error, a following `Load`
returns no bytes and `fs.ErrNotExist`, and a second `Delete` returns `fs.ErrNotExist`
itself, the requests reaching a bucket that reports a missing object as
`storage.ErrObjectNotExist`. -/
theorem delete_then_not_found (gcs : GCS) (ctx ctx2 ctx3 : Context) (key : String)
    (hne : gcs.Bucket.ReportsNotExist) (hk : key ∈ gcs.Bucket.keys)
    (hd : ctx.delete = none) (hr : ctx2.newReader = none) (hd3 : ctx3.delete = none) :
    (gcs.Delete ctx key).1 = none ∧
    (gcs.Delete ctx key).2.Load ctx2 key = ([], some .ErrNotExist) ∧
    ((gcs.Delete ctx key).2.Delete ctx3 key).1 = some .ErrNotExist := by
  rw [delete_ok gcs ctx key hd hk]
  have hf := find_after_remove gcs.Bucket.objects gcs.Bucket.clock gcs.Bucket.notExist key
  exact ⟨rfl, load_of_absent _ ctx2 key hne hf hr, delete_of_absent _ ctx3 key hne hf hd3⟩

/-- Witness of C3: the certificate of the scenario, deleted twice. -/
theorem delete_then_not_found_witness :
    ((GCS.Delete ⟨"bucket", ⟨[("acme/example.com/cert.pem", ⟨[67, 69, 82, 84], 0⟩)], 1,
          wrappedNotExist⟩⟩
        Context.background "acme/example.com/cert.pem").2.Delete
      Context.background "acme/example.com/cert.pem").1 = some .ErrNotExist :=
  (delete_then_not_found
    ⟨"bucket", ⟨[("acme/example.com/cert.pem", ⟨[67, 69, 82, 84], 0⟩)], 1, wrappedNotExist⟩⟩
    Context.background Context.background Context.background "acme/example.com/cert.pem"
    rfl (by decide) rfl rfl rfl).2.2

/-- C4: for a key absent from the bucket, `Load` returns no bytes and `fs.ErrNotExist`
when the provider answers, and never a success; when the request fails with any other
error `e`, it returns the error `loading object k: e` wrapping `e`, which is not
`fs.ErrNotExist` and which `errors.Is` matches with `fs.ErrNotExist` only if `e` itself
does. -/
theorem load_absent (gcs : GCS) (ctx : Context) (key : String)
    (hne : gcs.Bucket.ReportsNotExist) (hk : key ∉ gcs.Bucket.keys) :
    (ctx.newReader = none → gcs.Load ctx key = ([], some .ErrNotExist)) ∧
    (gcs.Load ctx key).2 ≠ none ∧
    (∀ e : GoError, ctx.newReader = some e →
      errorsIs (some e) (some .ErrObjectNotExist) = false →
        gcs.Load ctx key =
            ([], some (.wrapError ("loading object " ++ key ++ ": " ++ e.Error) e)) ∧
          (gcs.Load ctx key).2 ≠ some .ErrNotExist ∧
          errorsIs (gcs.Load ctx key).2 (some .ErrNotExist) =
            errorsIs (some e) (some .ErrNotExist)) := by
  have hf : gcs.Bucket.find key = none := (gcs.Bucket.find_eq_none_iff key).2 hk
  have hne2 : errorsIs (some gcs.Bucket.notExist) (some .ErrObjectNotExist) = true := hne
  refine ⟨?_, ?_, ?_⟩
  · exact load_of_absent gcs ctx key hne hf
  · cases hr : ctx.newReader with
    | none => simp [GCS.Load, BucketHandle.Object, ObjectHandle.NewReader, hr, hf, hne2]
    | some e =>
      simp only [GCS.Load, BucketHandle.Object, ObjectHandle.NewReader, hr]
      split <;> simp
  · intro e hr he
    have he2 : e.is .ErrObjectNotExist = false := he
    have hl : gcs.Load ctx key =
        ([], some (.wrapError ("loading object " ++ key ++ ": " ++ e.Error) e)) := by
      simp [GCS.Load, BucketHandle.Object, ObjectHandle.NewReader, hr, he, fmtErrorf]
    rw [hl]
    simp [errorsIs, GoError.is]

/-- Witness of C4: a key never written, looked up in the example bucket. -/
theorem load_absent_witness :
    GCS.Load ⟨"bucket", exampleBucket⟩ Context.background "acme/example.com/cert.pem" =
      ([], some .ErrNotExist) :=
  (load_absent ⟨"bucket", exampleBucket⟩ Context.background "acme/example.com/cert.pem"
    rfl (by decide)).1 rfl

/-! ## Locking -/

/-- C6 (as the code has it): `Lock` and `Unlock` return success for every key under every
context and leave the adapter and its bucket as they were, so a `Lock` that follows a
`Lock` of the same key with no `Unlock` in between returns success as well. -/
theorem lock_unlock_always_succeed (gcs : GCS) (ctx ctx2 : Context) (key : String) :
    gcs.Lock ctx key = (none, gcs) ∧ gcs.Unlock ctx key = (none, gcs) ∧
    ((gcs.Lock ctx key).2.Lock ctx2 key).1 = none := by
  simp [GCS.Lock, GCS.Unlock]

/-- C6 fails as stated: it is not so that a second `Lock` of a key fails to return
success while the first is held; both calls return `nil`. -/
theorem lock_not_exclusive :
    ¬ (∀ (gcs : GCS) (ctx ctx2 : Context) (key : String),
        (gcs.Lock ctx key).1 = none → ((gcs.Lock ctx key).2.Lock ctx2 key).1 ≠ none) := by
  intro h
  exact h ⟨"bucket", BucketHandle.empty .ErrObjectNotExist⟩ Context.background
    Context.background "acme/example.com/cert.pem" rfl rfl

/-! ## Error handling of `Exists` and `Store` -/

/-- C7: `Exists` returns false only when the attribute lookup returned the object-not-exist
signal, and whenever the lookup fails with any other error (transport, authentication,
deadline) it returns true. -/
theorem exists_false_only_on_not_exist (gcs : GCS) (ctx : Context) (key : String) :
    (gcs.Exists ctx key = false →
      errOf ((gcs.Bucket.Object key).Attrs ctx) = some .ErrObjectNotExist) ∧
    (∀ e : GoError, errOf ((gcs.Bucket.Object key).Attrs ctx) = some e →
      e ≠ .ErrObjectNotExist → gcs.Exists ctx key = true) := by
  constructor
  · intro h
    simpa [GCS.Exists] using h
  · intro e he hne
    simp [GCS.Exists, he, hne]

/-- Witness of C7: a lookup cut short by a deadline makes `Exists` answer true. -/
theorem exists_false_only_on_not_exist_witness :
    GCS.Exists ⟨"bucket", BucketHandle.empty .ErrObjectNotExist⟩
      { Context.background with attrs := some (.other "context deadline exceeded") }
      "acme/example.com/cert.pem" = true :=
  (exists_false_only_on_not_exist ⟨"bucket", BucketHandle.empty .ErrObjectNotExist⟩
      { Context.background with attrs := some (.other "context deadline exceeded") }
      "acme/example.com/cert.pem").2 (.other "context deadline exceeded") rfl (by decide)

/-- C8: `Store` returns success only if the write and the close of the object writer
both returned no error; when the write fails, `Store` returns an error whose message
names the key and which wraps the provider error, and the bucket is not committed to;
when the write succeeds and the close fails, `Store` returns the close error. -/
theorem store_reports_failures (gcs : GCS) (ctx : Context) (key : String) (value : Bytes) :
    ((gcs.Store ctx key value).1 = none →
      (((gcs.Bucket.Object key).NewWriter ctx).Write value).1.2 = none ∧
        (((gcs.Bucket.Object key).NewWriter ctx).Write value).2.Close.1 = none) ∧
    (∀ e : GoError, (((gcs.Bucket.Object key).NewWriter ctx).Write value).1.2 = some e →
      (gcs.Store ctx key value).1 =
          some (.wrapError ("writing object " ++ key ++ ": " ++ e.Error) e) ∧
        errorsIs (gcs.Store ctx key value).1 (some e) = true ∧
        (gcs.Store ctx key value).2 = gcs) ∧
    (∀ e : GoError, (((gcs.Bucket.Object key).NewWriter ctx).Write value).1.2 = none →
      (((gcs.Bucket.Object key).NewWriter ctx).Write value).2.Close.1 = some e →
        (gcs.Store ctx key value).1 = some e) := by
  refine ⟨?_, ?_, ?_⟩
  · cases hw : ctx.write <;> cases hc : ctx.close <;>
      simp [GCS.Store, BucketHandle.Object, ObjectHandle.NewWriter, Writer.Write,
        Writer.Close, hw, hc]
  · intro e
    cases hw : ctx.write <;>
      simp [GCS.Store, BucketHandle.Object, ObjectHandle.NewWriter, Writer.Write, hw,
        fmtErrorf, errorsIs, GoError.is, GoError.is_self]
    rintro rfl
    simp [GoError.is, GoError.is_self]
  · intro e
    cases hw : ctx.write <;> cases hc : ctx.close <;>
      simp [GCS.Store, BucketHandle.Object, ObjectHandle.NewWriter, Writer.Write,
        Writer.Close, hw, hc]

/-- Witness of C8: a write broken off by the transport. -/
theorem store_reports_failures_witness :
    (GCS.Store ⟨"bucket", BucketHandle.empty .ErrObjectNotExist⟩
        { Context.background with write := some (.other "connection reset") }
        "acme/example.com/cert.pem" [67, 69, 82, 84]).1 =
      some (.wrapError "writing object acme/example.com/cert.pem: connection reset"
        (.other "connection reset")) :=
  ((store_reports_failures ⟨"bucket", BucketHandle.empty .ErrObjectNotExist⟩
      { Context.background with write := some (.other "connection reset") }
      "acme/example.com/cert.pem" [67, 69, 82, 84]).2.1 (.other "connection reset") rfl).1

/-- C9, at the failing input: when the provider reports a missing object with an error
that wraps `storage.ErrObjectNotExist`, `Stat` returns `fs.ErrNotExist` and `Exists`
returns true for the same key of the same bucket. -/
theorem exists_misses_wrapped_not_exist :
    (GCS.Stat ⟨"bucket", BucketHandle.empty wrappedNotExist⟩ Context.background
        "acme/example.com/cert.pem").2 = some .ErrNotExist ∧
    GCS.Exists ⟨"bucket", BucketHandle.empty wrappedNotExist⟩ Context.background
        "acme/example.com/cert.pem" = true := by
  constructor
  · rfl
  · decide

/-! ## Error propagation of `List` -/

/-- C10 (as the code has it): when the enumeration yields any items and then fails with
an error `e` other than `iterator.Done`, `List` returns no names at all together with
the error `listing objects: e` wrapping `e`, whatever the enumeration would have
produced after the failure; the names collected before the failure are dropped. -/
theorem list_first_error (items : List ObjectAttrs) (e : GoError) (rest : ObjectIterator)
    (gcs : GCS) (ctx : Context) (pfx : String) (recursive : Bool) (n : Nat)
    (he : e ≠ .Done) :
    listLoop (items.map .ok ++ .error e :: rest) [] =
      ([], some (.wrapError ("listing objects: " ++ e.Error) e)) ∧
    (ctx.next = some (n, e) →
      gcs.List ctx pfx recursive =
        ([], some (.wrapError ("listing objects: " ++ e.Error) e))) := by
  constructor
  · rw [listLoop_ok, listLoop_error _ _ _ he]
    rfl
  · intro hn
    simp only [GCS.List, BucketHandle.Objects, hn]
    rw [listLoop_ok, listLoop_error _ _ _ he]
    rfl

/-- Witness of C10: the listing of the example bucket, broken off after one item. -/
theorem list_first_error_witness :
    GCS.List ⟨"bucket", exampleBucket⟩
        { Context.background with next := some (1, .other "connection reset") } "a/" true =
      ([], some (.wrapError "listing objects: connection reset" (.other "connection reset"))) :=
  (list_first_error [] (.other "connection reset") [] ⟨"bucket", exampleBucket⟩
      { Context.background with next := some (1, .other "connection reset") } "a/" true 1
      (by decide)).2 rfl

/-- C10 fails as stated: the listing of the example bucket yields `a/b.txt` and then
fails; the caller receives the error and an empty result, without `a/b.txt`. -/
theorem list_drops_yielded_names :
    BucketHandle.Objects exampleBucket
        { Context.background with next := some (1, .other "connection reset") }
        ⟨"a/", ""⟩ =
      [.ok ⟨"a/b.txt", "", 1, 0⟩, .error (.other "connection reset")] ∧
    "a/b.txt" ∉ (GCS.List ⟨"bucket", exampleBucket⟩
        { Context.background with next := some (1, .other "connection reset") }
        "a/" true).1 := by
  constructor
  · rfl
  · decide

end CertmagicGCS
